import Mathlib

/-!
# BridgeAid matching core — shallow embedding

A shallow embedding of the BridgeAid resource-matching core:
`src/backend/matching.js` (category filter → eligibility filter → language
preference → distance annotation → sort & truncate) and
`src/backend/resourceService.js` (resource normalization and the TTL cache).

JavaScript dynamic values are modelled by `JValue`; raw resource records
(string-keyed objects) by association lists `RawRecord`.  JavaScript
truthiness, `||`-chains, optional chaining, `String.prototype.toLowerCase`
(simple case mapping on the Basic Latin and Latin-1 ranges),
`String.prototype.localeCompare` under the default ICU root collation
(case-folded primary comparison, case as the tie level with lowercase
first), and the `Object.prototype` properties inherited by object literals
are modelled explicitly.  `Math.random()` draws are modelled by explicit
parameters (an arbitrary natural taken modulo the range), so every function
is deterministic given a fixed random source, matching the spec's
"deterministic given a fixed distance function".  Fallible JavaScript code
(method calls on values that may not be strings, which would raise
`TypeError`) is modelled with `Except String`.
-/

/-- Model of a JavaScript value as stored in a raw resource record or
reached through the prototype chain; `func` models a function object
(carrying its name), such as the inherited `Object.prototype.constructor`. -/
inductive JValue : Type where
  | str : String → JValue
  | num : Int → JValue
  | bool : Bool → JValue
  | null : JValue
  | arr : List JValue → JValue
  | obj : List (String × JValue) → JValue
  | func : String → JValue
deriving Repr

/-- A raw resource record: a mapping of string keys to arbitrary values. -/
abbrev RawRecord := List (String × JValue)

/-- JavaScript truthiness of a defined value: `''`, `0`, `false` and `null`
are falsy; arrays and objects (even empty) are truthy. -/
def JValue.truthy : JValue → Bool
  | .str s => s ≠ ""
  | .num n => n ≠ 0
  | .bool b => b
  | .null => false
  | .arr _ => true
  | .obj _ => true
  | .func _ => true

/-- Truthiness of a possibly-`undefined` value (`none` models `undefined`). -/
def truthyO : Option JValue → Bool
  | none => false
  | some v => v.truthy

/-- Property access `record.key` (`undefined` when the key is absent). -/
def getField (r : RawRecord) (k : String) : Option JValue :=
  (r.find? (fun p => p.1 == k)).map (·.2)

/-- Optional-chained access `record.k1?.k2`: `undefined` unless `k1` holds an
object with key `k2`. -/
def getField2 (r : RawRecord) (k1 k2 : String) : Option JValue :=
  match getField r k1 with
  | some (.obj fields) => (fields.find? (fun p => p.1 == k2)).map (·.2)
  | _ => none

/-- JavaScript `a || b` where both operands may be `undefined`. -/
def jsOr (a b : Option JValue) : Option JValue :=
  if truthyO a then a else b

/-- JavaScript `a || d` with a literal (always-defined) default `d`. -/
def jsOrD (a : Option JValue) (d : JValue) : JValue :=
  if truthyO a then a.getD d else d

/-- Per-character model of the simple lowercase mapping used by
`String.prototype.toLowerCase`, on the Basic Latin and Latin-1 ranges (the
alphabets exercised by this catalog): `A`–`Z` and `À`–`Þ` (excluding `×`)
shift by 32; characters outside these ranges are kept. -/
def jsCharToLower (c : Char) : Char :=
  if 0x41 ≤ c.toNat ∧ c.toNat ≤ 0x5a then Char.ofNat (c.toNat + 32)
  else if 0xc0 ≤ c.toNat ∧ c.toNat ≤ 0xde ∧ c.toNat ≠ 0xd7 then Char.ofNat (c.toNat + 32)
  else c

/-- Model of `String.prototype.toLowerCase` (per-character lowering). -/
def jsToLower (s : String) : String :=
  ⟨s.data.map jsCharToLower⟩

/-- The `categoryMap` synonym table of `mapCategory`
(`src/backend/resourceService.js` lines 55–76). -/
def categoryMap : List (String × String) :=
  [("food", "food"),
   ("food assistance", "food"),
   ("food bank", "food"),
   ("meal", "food"),
   ("nutrition", "food"),
   ("housing", "housing"),
   ("shelter", "housing"),
   ("rental assistance", "housing"),
   ("mental health", "mental_health"),
   ("mental healthcare", "mental_health"),
   ("counseling", "mental_health"),
   ("therapy", "mental_health"),
   ("legal", "legal"),
   ("legal aid", "legal"),
   ("legal services", "legal"),
   ("jobs", "jobs"),
   ("employment", "jobs"),
   ("job training", "jobs"),
   ("workforce", "jobs"),
   ("career", "jobs")]

/-- The all-lowercase own properties of `Object.prototype`, inherited by
every object literal through the prototype chain and therefore reachable
from a lower-cased lookup key: `constructor` (the `Object` constructor
function) and `__proto__` (the prototype object itself).  Both are truthy
non-strings.  The prototype object is kept opaque (`obj []`): none of its
own properties are consulted downstream, only its truthiness and shape. -/
def protoLookup (k : String) : Option JValue :=
  if k = "constructor" then some (.func "Object")
  else if k = "__proto__" then some (.obj [])
  else none

/-- The JavaScript property read `categoryMap[k]`: the own entry when
present, else the `Object.prototype` inherited property, else
`undefined`. -/
def categoryMapGet (k : String) : Option JValue :=
  match (categoryMap.find? (fun p => p.1 == k)).map (·.2) with
  | some v => some (.str v)
  | none => protoLookup k

/-- `mapCategory(category)`: falsy input gives `'other'`; otherwise
`category.toLowerCase()` is looked up in the synonym table —
`categoryMap[categoryLower]` traverses the prototype chain, so the
inherited `constructor`/`__proto__` entries leak through as truthy
non-strings — and a falsy lookup result falls back to the lower-cased
input string.  Calling `.toLowerCase()` on a truthy non-string raises a
`TypeError`, modelled as `Except.error`. -/
def mapCategory (v : Option JValue) : Except String JValue :=
  match v with
  | none => .ok (.str "other")
  | some w =>
    if w.truthy then
      match w with
      | .str s =>
        let categoryLower := jsToLower s
        .ok (jsOrD (categoryMapGet categoryLower) (.str categoryLower))
      | _ => .error "TypeError: category.toLowerCase is not a function"
    else .ok (.str "other")

/-- A regex word character (`\w`): letter, digit or underscore. -/
def isWordChar (c : Char) : Bool :=
  c.isAlpha || c.isDigit || c == '_'

/-- Whether the pattern `\b\d{5}\b` matches at the start of `cs`, given the
character just before (if any): five digits, preceded and followed by a word
boundary.  Returns the matched digits. -/
def zip5At (prev : Option Char) (cs : List Char) : Option (List Char) :=
  match cs with
  | d1 :: d2 :: d3 :: d4 :: d5 :: rest =>
    if (match prev with | some c => !isWordChar c | none => true) &&
       d1.isDigit && d2.isDigit && d3.isDigit && d4.isDigit && d5.isDigit &&
       (match rest with | c :: _ => !isWordChar c | [] => true) then
      some [d1, d2, d3, d4, d5]
    else none
  | _ => none

/-- Leftmost match of `\b\d{5}\b` in a character list. -/
def findZip5 (prev : Option Char) (cs : List Char) : Option (List Char) :=
  match zip5At prev cs with
  | some m => some m
  | none =>
    match cs with
    | [] => none
    | c :: rest => findZip5 (some c) rest

/-- Whether `\b\d{5}-\d{4}\b` matches at the start of `cs`; returns the
matched characters. -/
def zipPlus4At (prev : Option Char) (cs : List Char) : Option (List Char) :=
  match cs with
  | d1 :: d2 :: d3 :: d4 :: d5 :: h :: e1 :: e2 :: e3 :: e4 :: rest =>
    if (match prev with | some c => !isWordChar c | none => true) &&
       d1.isDigit && d2.isDigit && d3.isDigit && d4.isDigit && d5.isDigit &&
       h == '-' && e1.isDigit && e2.isDigit && e3.isDigit && e4.isDigit &&
       (match rest with | c :: _ => !isWordChar c | [] => true) then
      some [d1, d2, d3, d4, d5, h, e1, e2, e3, e4]
    else none
  | _ => none

/-- Leftmost match of `\b\d{5}-\d{4}\b` in a character list. -/
def findZipPlus4 (prev : Option Char) (cs : List Char) : Option (List Char) :=
  match zipPlus4At prev cs with
  | some m => some m
  | none =>
    match cs with
    | [] => none
    | c :: rest => findZipPlus4 (some c) rest

/-- `extractZip(text)`: falsy input gives `''`; on a string, the first
`\b\d{5}\b` match, else the first `\b\d{5}-\d{4}\b` match truncated to five
characters, else `''`.  `.match` on a truthy non-string raises. -/
def extractZip (v : JValue) : Except String String :=
  if v.truthy then
    match v with
    | .str s =>
      match findZip5 none s.data with
      | some m => .ok ⟨m⟩
      | none =>
        match findZipPlus4 none s.data with
        | some m => .ok ⟨m.take 5⟩
        | none => .ok ""
    | _ => .error "TypeError: text.match is not a function"
  else .ok ""

/-- `normalizeResource(resource)` (`src/backend/resourceService.js` lines
23–44).  If `resource.id && resource.name && resource.category` are all
truthy the record is returned as-is; otherwise a canonical record is built
by `||`-chains over alternate field names with hardcoded defaults.
`Math.random()` (the fallback id) is modelled by the parameter `randId`. -/
def normalizeResource (randId : JValue) (resource : RawRecord) : Except String RawRecord :=
  if truthyO (getField resource "id") && truthyO (getField resource "name") &&
     truthyO (getField resource "category") then
    .ok resource
  else do
    let category ← mapCategory
      (jsOr (getField resource "category")
        (jsOr (getField resource "service_category") (getField resource "type")))
    let zip ← extractZip
      (jsOrD (jsOr (getField resource "zip")
        (jsOr (getField resource "postal_code")
          (jsOr (getField2 resource "location" "postal_code") (getField resource "address"))))
        (.str ""))
    .ok
      [("id", jsOrD (jsOr (getField resource "id")
          (jsOr (getField resource "resource_id") (getField resource "organization_id"))) randId),
       ("name", jsOrD (jsOr (getField resource "name")
          (jsOr (getField resource "organization_name") (getField resource "title")))
          (.str "Unknown Resource")),
       ("category", category),
       ("address", jsOrD (jsOr (getField resource "address")
          (jsOr (getField2 resource "location" "address") (getField resource "physical_address")))
          (.str "")),
       ("zip", .str zip),
       ("hours", jsOrD (jsOr (getField resource "hours")
          (jsOr (getField resource "hours_of_operation") (getField resource "schedule")))
          (.str "Contact for hours")),
       ("phone", jsOrD (jsOr (getField resource "phone")
          (jsOr (getField resource "phone_number") (getField resource "contact_phone")))
          (.str "")),
       ("website", jsOrD (jsOr (getField resource "website")
          (jsOr (getField resource "url") (getField resource "web_url"))) (.str "")),
       ("eligibilityNotes", jsOrD (jsOr (getField resource "eligibilityNotes")
          (jsOr (getField resource "eligibility_notes")
            (jsOr (getField resource "eligibility") (getField resource "description"))))
          (.str "")),
       ("eligibilityTags", jsOrD (jsOr (getField resource "eligibilityTags")
          (jsOr (getField resource "eligibility_tags") (getField resource "tags"))) (.arr [])),
       ("languagesSupported", jsOrD (jsOr (getField resource "languagesSupported")
          (jsOr (getField resource "languages_supported") (getField resource "languages")))
          (.arr [.str "English"]))]

/-!
## Match engine (`src/backend/matching.js`)

Resources consumed by the match engine follow the canonical schema produced
by normalization: `eligibilityTags` and `languagesSupported` are `Option`s
so that an absent (`undefined`/`null`) list is distinguished from an empty
one, as JavaScript does in `matchesEligibility` / `supportsLanguage`.
-/

/-- A canonical resource as consumed by the match engine (only the fields
`matchResources` reads). -/
structure Resource : Type where
  name : String
  category : String
  zip : String
  eligibilityTags : Option (List String)
  languagesSupported : Option (List String)
deriving DecidableEq, Repr

/-- The user-criteria record submitted per request. `preferredLanguage` is
optional: `matchResources` defaults it to `"English"` when absent. -/
structure UserInfo : Type where
  zip : String
  primaryNeed : String
  preferredLanguage : Option String
  incomeBracket : String
  ageRange : String
  householdSize : Nat
deriving DecidableEq, Repr

/-- `calculateDistance(zip1, zip2)` (`matching.js` lines 9–23): 0 on exact
equality; a draw in [1,5] when the first three characters agree; otherwise a
draw in [5,14].  The `Math.random()` draw is modelled by `rand`, reduced
modulo the range exactly as `Math.floor(Math.random() * n)` lands in
`[0, n)`. -/
def calculateDistance (rand : Nat) (zip1 zip2 : String) : Nat :=
  if zip1 = zip2 then 0
  else
    let zip1Prefix := zip1.take 3
    let zip2Prefix := zip2.take 3
    if zip1Prefix = zip2Prefix then rand % 5 + 1
    else rand % 10 + 5

/-- The user tags derived in `matchesEligibility` (`matching.js` lines
35–50), in push order. -/
def userTags (userInfo : UserInfo) : List String :=
  (if userInfo.incomeBracket = "low" ∨ userInfo.incomeBracket = "very_low"
    then ["low_income"] else []) ++
  (if userInfo.ageRange = "65+" then ["senior"] else []) ++
  (if userInfo.householdSize > 1 then ["parent"] else [])

/-- `matchesEligibility(resource, userInfo)` (`matching.js` lines 28–60):
absent or empty tag set always passes; otherwise pass unless both the
resource tag set and the derived user tag set are non-empty and disjoint. -/
def matchesEligibility (resource : Resource) (userInfo : UserInfo) : Bool :=
  match resource.eligibilityTags with
  | none => true
  | some tags =>
    if tags.length = 0 then true
    else
      let uTags := userTags userInfo
      if tags.length > 0 && uTags.length > 0 then
        tags.any (fun tag => uTags.contains tag)
      else true

/-- `supportsLanguage(resource, preferredLanguage)` (`matching.js` lines
65–73): absent or empty supported-languages set passes; otherwise some
supported language must equal the preference case-insensitively. -/
def supportsLanguage (resource : Resource) (preferredLanguage : String) : Bool :=
  match resource.languagesSupported with
  | none => true
  | some langs =>
    if langs.length = 0 then true
    else langs.any (fun lang => jsToLower lang == jsToLower preferredLanguage)

/-- A match result: a resource annotated with its computed distance
(the JavaScript spread `{...resource, distance}`). -/
structure MatchResult : Type where
  resource : Resource
  distance : Nat
deriving DecidableEq, Repr

/-- Three-way code-point comparison of character lists, the building block
of the collation model. -/
def lexCompareVals : List Char → List Char → Ordering
  | [], [] => .eq
  | [], _ :: _ => .lt
  | _ :: _, [] => .gt
  | c1 :: r1, c2 :: r2 =>
    if c1.toNat < c2.toNat then .lt
    else if c2.toNat < c1.toNat then .gt
    else lexCompareVals r1 r2

/-- Model of `String.prototype.localeCompare` under the default (ICU root)
collation, for the behaviors observable in this development: strings are
compared primarily by their case-folded forms (code-point order), and
strings with equal case-folded forms are ordered by case, lowercase before
uppercase (the root-locale tie level — the reversed code-point comparison
of the raw strings, since each lowercase letter sits 32 above its
uppercase form).  Finer ICU levels (accent secondaries, variable
punctuation weighting) are outside the model's scope.  The result is the
sign of `a.localeCompare(b)`. -/
def jsLocaleCompare (s t : String) : Ordering :=
  let primary := lexCompareVals (jsToLower s).data (jsToLower t).data
  if primary = .eq then (lexCompareVals s.data t.data).swap else primary

/-- The sort comparator of `matchResources` (lines 113–118): ascending
distance, ties broken by `a.name.localeCompare(b.name)` being
non-positive. -/
def matchLE (a b : MatchResult) : Bool :=
  decide (a.distance < b.distance) ||
    (a.distance == b.distance &&
      decide (jsLocaleCompare a.resource.name b.resource.name ≠ .gt))

/-- Stage 1 of `matchResources`: keep resources whose category equals the
primary need exactly. -/
def categoryFilter (resources : List Resource) (primaryNeed : String) : List Resource :=
  resources.filter (fun resource => resource.category = primaryNeed)

/-- Stage 2 of `matchResources`: the eligibility filter. -/
def eligibilityStage (matched : List Resource) (userInfo : UserInfo) : List Resource :=
  matched.filter (fun resource => matchesEligibility resource userInfo)

/-- Stage 3 of `matchResources`: prefer the language-supporting subset but
fall back to the whole set when that subset is empty. -/
def languageStage (matched : List Resource) (preferredLanguage : String) : List Resource :=
  let languageMatches := matched.filter (fun resource => supportsLanguage resource preferredLanguage)
  if languageMatches.length > 0 then languageMatches else matched

/-- Stage 4 of `matchResources`: annotate each resource with its distance.
`draw i` models the `Math.random()` draw consumed by the `i`-th resource. -/
def annotateDistance (draw : Nat → Nat) (zip : String) (matched : List Resource) :
    List MatchResult :=
  matched.enum.map (fun p => ⟨p.2, calculateDistance (draw p.1) zip p.2.zip⟩)

/-- `matchResources(resources, userInfo)` (`matching.js` lines 79–122):
category filter, eligibility filter, soft language filter, distance
annotation, stable sort by (distance, name), truncation to 5. -/
def matchResources (draw : Nat → Nat) (resources : List Resource) (userInfo : UserInfo) :
    List MatchResult :=
  let preferredLanguage := userInfo.preferredLanguage.getD "English"
  let matched := categoryFilter resources userInfo.primaryNeed
  let matched2 := eligibilityStage matched userInfo
  let prioritizedMatches := languageStage matched2 preferredLanguage
  let matchesWithDistance := annotateDistance draw userInfo.zip prioritizedMatches
  (matchesWithDistance.mergeSort matchLE).take 5

/-!
## Resource cache (`src/backend/resourceService.js` lines 14–18, 186–266)

The module-level cache is modelled as explicit state.  `Date.now()` is the
parameter `now`; the outcome of the source-selection `switch` (lines
196–235, environment-dependent I/O: API fetch, database, JSON file, with
fallbacks) is abstracted as the parameter `load`, the catalog the configured
source would deliver at this moment.  The JavaScript truthiness guard
`resourceCache.data && resourceCache.timestamp` makes a `0` timestamp
falsy, hence the `t ≠ 0` condition.
-/

/-- The in-memory resource cache (`resourceService.js` lines 14–18). -/
structure ResourceCache (α : Type) : Type where
  data : Option α
  timestamp : Option Nat
  ttl : Nat
deriving Repr

/-- The initial module-level cache: no data, no timestamp, 1-hour TTL. -/
def initialCache (α : Type) : ResourceCache α :=
  ⟨none, none, 3600000⟩

/-- `getAllResources()` (lines 186–257): return the cached data when it is
present and younger than the TTL; otherwise load from the configured source
and overwrite the cache. -/
def getAllResources (load : α) (now : Nat) (c : ResourceCache α) : α × ResourceCache α :=
  match c.data, c.timestamp with
  | some d, some t =>
    if t ≠ 0 ∧ now - t < c.ttl then (d, c)
    else (load, { c with data := some load, timestamp := some now })
  | _, _ => (load, { c with data := some load, timestamp := some now })

/-- `refreshResources()` (lines 262–266): unconditionally clear the cached
data and timestamp, then read. -/
def refreshResources (load : α) (now : Nat) (c : ResourceCache α) : α × ResourceCache α :=
  getAllResources load now ⟨none, none, c.ttl⟩

/-!
## Helper lemmas
-/

/-- Lowering a non-empty string yields a non-empty string. -/
theorem jsToLower_ne_empty {s : String} (h : s ≠ "") : jsToLower s ≠ "" := by
  intro heq
  apply h
  apply String.ext
  have hdata : s.data.map jsCharToLower = [] := congrArg String.data heq
  simpa using List.map_eq_nil_iff.mp hdata

/-- Characters with equal code points are equal. -/
theorem char_eq_of_toNat_eq {c1 c2 : Char} (h : c1.toNat = c2.toNat) : c1 = c2 :=
  Char.ext (UInt32.toNat.inj h)

/-- Swapping the arguments of the code-point comparison swaps the result. -/
theorem lexCompareVals_swap : ∀ (l1 l2 : List Char),
    lexCompareVals l2 l1 = (lexCompareVals l1 l2).swap
  | [], [] => rfl
  | [], _ :: _ => rfl
  | _ :: _, [] => rfl
  | c1 :: r1, c2 :: r2 => by
    simp only [lexCompareVals]
    rcases Nat.lt_trichotomy c1.toNat c2.toNat with h | h | h
    · simp [h, Nat.lt_asymm h, Ordering.swap]
    · simp [h, lexCompareVals_swap r1 r2]
    · simp [h, Nat.lt_asymm h, Ordering.swap]

/-- The code-point comparison returns `eq` exactly on equal lists. -/
theorem lexCompareVals_eq_iff : ∀ (l1 l2 : List Char),
    lexCompareVals l1 l2 = .eq ↔ l1 = l2
  | [], [] => by simp [lexCompareVals]
  | [], _ :: _ => by simp [lexCompareVals]
  | _ :: _, [] => by simp [lexCompareVals]
  | c1 :: r1, c2 :: r2 => by
    simp only [lexCompareVals]
    rcases Nat.lt_trichotomy c1.toNat c2.toNat with h | h | h
    · rw [if_pos h]
      constructor
      · intro hcontra
        exact absurd hcontra (by decide)
      · intro hcons
        injection hcons with hc hr
        exact absurd (congrArg Char.toNat hc) (by omega)
    · have hc : c1 = c2 := char_eq_of_toNat_eq h
      subst hc
      rw [if_neg (by omega), if_neg (by omega), lexCompareVals_eq_iff r1 r2]
      simp
    · rw [if_neg (by omega), if_pos h]
      constructor
      · intro hcontra
        exact absurd hcontra (by decide)
      · intro hcons
        injection hcons with hc hr
        exact absurd (congrArg Char.toNat hc) (by omega)

/-- The strict part of the code-point comparison is transitive. -/
theorem lexCompareVals_lt_trans : ∀ (l1 l2 l3 : List Char),
    lexCompareVals l1 l2 = .lt → lexCompareVals l2 l3 = .lt →
    lexCompareVals l1 l3 = .lt
  | [], l2, l3 => by
    intro h12 h23
    cases l2 with
    | nil => exact absurd h12 (by decide)
    | cons c2 r2 =>
      cases l3 with
      | nil => exact absurd h23 (by simp [lexCompareVals])
      | cons c3 r3 => exact rfl
  | c1 :: r1, l2, l3 => by
    intro h12 h23
    cases l2 with
    | nil => exact absurd h12 (by simp [lexCompareVals])
    | cons c2 r2 =>
      cases l3 with
      | nil => exact absurd h23 (by simp [lexCompareVals])
      | cons c3 r3 =>
        simp only [lexCompareVals] at h12 h23 ⊢
        by_cases ha : c1.toNat < c2.toNat
        · by_cases hb : c2.toNat < c3.toNat
          · rw [if_pos (by omega)]
          · by_cases hc : c3.toNat < c2.toNat
            · rw [if_neg hb, if_pos hc] at h23
              exact absurd h23 (by decide)
            · rw [if_pos (by omega)]
        · by_cases hb : c2.toNat < c1.toNat
          · rw [if_neg ha, if_pos hb] at h12
            exact absurd h12 (by decide)
          · rw [if_neg ha, if_neg hb] at h12
            by_cases hc : c2.toNat < c3.toNat
            · rw [if_pos (by omega)]
            · by_cases hd : c3.toNat < c2.toNat
              · rw [if_neg hc, if_pos hd] at h23
                exact absurd h23 (by decide)
              · rw [if_neg hc, if_neg hd] at h23
                rw [if_neg (by omega), if_neg (by omega)]
                exact lexCompareVals_lt_trans r1 r2 r3 h12 h23

/-- The code-point comparison of a list with itself is `eq`. -/
theorem lexCompareVals_self (l : List Char) : lexCompareVals l l = .eq :=
  (lexCompareVals_eq_iff l l).mpr rfl

/-- The collation result is non-`gt` exactly when the case-folded forms
compare strictly below, or they coincide and the raw forms do not compare
strictly below (lowercase-first at the tie level). -/
theorem jsLocaleCompare_not_gt_iff (s t : String) :
    jsLocaleCompare s t ≠ .gt ↔
      (lexCompareVals (jsToLower s).data (jsToLower t).data = .lt ∨
        ((jsToLower s).data = (jsToLower t).data ∧
          lexCompareVals s.data t.data ≠ .lt)) := by
  unfold jsLocaleCompare
  by_cases hp : lexCompareVals (jsToLower s).data (jsToLower t).data = .eq
  · rw [if_pos hp]
    have hd := (lexCompareVals_eq_iff _ _).mp hp
    cases hraw : lexCompareVals s.data t.data <;>
      simp [hp, hd, hraw, Ordering.swap, lexCompareVals_self]
  · rw [if_neg hp]
    constructor
    · intro h1
      left
      cases hlex : lexCompareVals (jsToLower s).data (jsToLower t).data with
      | lt => rfl
      | eq => exact absurd hlex hp
      | gt => exact absurd hlex h1
    · intro h2
      rcases h2 with h2 | ⟨hd, -⟩
      · rw [h2]
        decide
      · exact absurd ((lexCompareVals_eq_iff _ _).mpr hd) hp

/-- The non-`gt` collation relation is total. -/
theorem jsLocaleCompare_not_gt_total (s t : String) :
    jsLocaleCompare s t ≠ .gt ∨ jsLocaleCompare t s ≠ .gt := by
  rw [jsLocaleCompare_not_gt_iff, jsLocaleCompare_not_gt_iff]
  by_cases hlt : lexCompareVals (jsToLower s).data (jsToLower t).data = .lt
  · exact Or.inl (Or.inl hlt)
  · by_cases heq : lexCompareVals (jsToLower s).data (jsToLower t).data = .eq
    · have hd := (lexCompareVals_eq_iff _ _).mp heq
      by_cases hraw : lexCompareVals s.data t.data = .lt
      · refine Or.inr (Or.inr ⟨hd.symm, ?_⟩)
        rw [lexCompareVals_swap, hraw]
        decide
      · exact Or.inl (Or.inr ⟨hd, hraw⟩)
    · refine Or.inr (Or.inl ?_)
      rw [lexCompareVals_swap]
      cases hcase : lexCompareVals (jsToLower s).data (jsToLower t).data with
      | lt => exact absurd hcase hlt
      | eq => exact absurd hcase heq
      | gt => exact rfl

/-- The non-`gt` collation relation is transitive. -/
theorem jsLocaleCompare_not_gt_trans (s t u : String)
    (h1 : jsLocaleCompare s t ≠ .gt) (h2 : jsLocaleCompare t u ≠ .gt) :
    jsLocaleCompare s u ≠ .gt := by
  rw [jsLocaleCompare_not_gt_iff] at h1 h2 ⊢
  rcases h1 with h1 | ⟨h1e, h1r⟩ <;> rcases h2 with h2 | ⟨h2e, h2r⟩
  · exact Or.inl (lexCompareVals_lt_trans _ _ _ h1 h2)
  · exact Or.inl (by rw [← h2e]; exact h1)
  · exact Or.inl (by rw [h1e]; exact h2)
  · refine Or.inr ⟨h1e.trans h2e, ?_⟩
    intro hsu
    cases hst : lexCompareVals s.data t.data with
    | lt => exact h1r hst
    | eq =>
      have hd := (lexCompareVals_eq_iff _ _).mp hst
      exact h2r (by rw [← hd]; exact hsu)
    | gt =>
      have hts : lexCompareVals t.data s.data = .lt := by
        rw [lexCompareVals_swap, hst]
        rfl
      exact h2r (lexCompareVals_lt_trans _ _ _ hts hsu)

/-- Unfolding of the Boolean sort comparator. -/
theorem matchLE_iff (a b : MatchResult) :
    matchLE a b = true ↔
      (a.distance < b.distance ∨
        (a.distance = b.distance ∧
          jsLocaleCompare a.resource.name b.resource.name ≠ .gt)) := by
  simp [matchLE]

/-- The sort comparator is transitive. -/
theorem matchLE_trans (a b c : MatchResult) (hab : matchLE a b) (hbc : matchLE b c) :
    matchLE a c := by
  rw [matchLE_iff] at *
  rcases hab with h1 | ⟨h1, h1n⟩ <;> rcases hbc with h2 | ⟨h2, h2n⟩
  · exact Or.inl (h1.trans h2)
  · exact Or.inl (h2 ▸ h1)
  · exact Or.inl (h1 ▸ h2)
  · exact Or.inr ⟨h1.trans h2, jsLocaleCompare_not_gt_trans _ _ _ h1n h2n⟩

/-- The sort comparator is total. -/
theorem matchLE_total (a b : MatchResult) : matchLE a b || matchLE b a := by
  rcases Nat.lt_trichotomy a.distance b.distance with h | h | h
  · simp [matchLE_iff, h]
  · rcases jsLocaleCompare_not_gt_total a.resource.name b.resource.name with hn | hn
    · simp [matchLE_iff, h, hn]
    · simp [matchLE_iff, h, hn]
  · simp [matchLE_iff, h]

/-- The language stage unfolded: the filtered subset when non-empty, else the
input unchanged. -/
theorem languageStage_eq (l : List Resource) (lang : String) :
    languageStage l lang =
      if (l.filter (fun resource => supportsLanguage resource lang)).length > 0 then
        l.filter (fun resource => supportsLanguage resource lang)
      else l := rfl

/-- The language stage only ever keeps elements of its input. -/
theorem mem_languageStage {r : Resource} {l : List Resource} {lang : String}
    (h : r ∈ languageStage l lang) : r ∈ l := by
  rw [languageStage_eq] at h
  split at h
  · exact List.mem_filter.mp h |>.1
  · exact h

/-- Every annotated match comes from the input list and carries a distance
computed by `calculateDistance` from some draw. -/
theorem mem_annotateDistance {m : MatchResult} {draw : Nat → Nat} {zip : String}
    {l : List Resource} (h : m ∈ annotateDistance draw zip l) :
    m.resource ∈ l ∧ ∃ k, m.distance = calculateDistance k zip m.resource.zip := by
  unfold annotateDistance at h
  obtain ⟨p, hp, hm⟩ := List.mem_map.mp h
  have hmem : p.2 ∈ l := by
    have := List.mem_enum_iff_getElem?.mp hp
    exact List.getElem?_mem this
  subst hm
  exact ⟨hmem, draw p.1, rfl⟩

/-- Every element of a match result comes from the eligibility stage over the
category filter, with a `calculateDistance`-computed distance. -/
theorem mem_matchResources {m : MatchResult} {draw : Nat → Nat}
    {resources : List Resource} {userInfo : UserInfo}
    (h : m ∈ matchResources draw resources userInfo) :
    m.resource ∈ eligibilityStage (categoryFilter resources userInfo.primaryNeed) userInfo ∧
      ∃ k, m.distance = calculateDistance k userInfo.zip m.resource.zip := by
  unfold matchResources at h
  have h1 := List.mem_of_mem_take h
  rw [List.mem_mergeSort] at h1
  obtain ⟨hmem, hdist⟩ := mem_annotateDistance h1
  exact ⟨mem_languageStage hmem, hdist⟩

/-!
## Claims
-/

/-- Claim C3: `calculateDistance` is a non-negative integer in three tiers:
0 on exact ZIP equality; in [1,5] when the ZIPs differ but share their first
three characters; in [5,14] otherwise.  Every match-result element whose ZIP
equals the criteria ZIP has distance 0. -/
theorem calculateDistance_tiers :
    (∀ (rand : Nat) (zip1 zip2 : String),
      (zip1 = zip2 → calculateDistance rand zip1 zip2 = 0) ∧
      (zip1 ≠ zip2 → zip1.take 3 = zip2.take 3 →
        1 ≤ calculateDistance rand zip1 zip2 ∧ calculateDistance rand zip1 zip2 ≤ 5) ∧
      (zip1 ≠ zip2 → zip1.take 3 ≠ zip2.take 3 →
        5 ≤ calculateDistance rand zip1 zip2 ∧ calculateDistance rand zip1 zip2 ≤ 14)) ∧
    (∀ (draw : Nat → Nat) (resources : List Resource) (userInfo : UserInfo)
      (m : MatchResult), m ∈ matchResources draw resources userInfo →
      m.resource.zip = userInfo.zip → m.distance = 0) := by
  constructor
  · intro rand zip1 zip2
    refine ⟨fun h => by simp [calculateDistance, h], fun hne hpre => ?_, fun hne hpre => ?_⟩
    · have h5 : rand % 5 < 5 := Nat.mod_lt _ (by omega)
      simp only [calculateDistance, if_neg hne, if_pos hpre]
      omega
    · have h10 : rand % 10 < 10 := Nat.mod_lt _ (by omega)
      simp only [calculateDistance, if_neg hne, if_neg hpre]
      omega
  · intro draw resources userInfo m hm hzip
    obtain ⟨-, k, hk⟩ := mem_matchResources hm
    rw [hk, calculateDistance, if_pos hzip.symm]

/-- Claim C3 witness: the three tiers at concrete ZIP pairs. -/
theorem calculateDistance_tiers_witness :
    calculateDistance 7 "94601" "94601" = 0 ∧
    (1 ≤ calculateDistance 7 "94601" "94699" ∧ calculateDistance 7 "94601" "94699" ≤ 5) ∧
    (5 ≤ calculateDistance 7 "94601" "10001" ∧ calculateDistance 7 "94601" "10001" ≤ 14) :=
  ⟨(calculateDistance_tiers.1 7 "94601" "94601").1 rfl,
   (calculateDistance_tiers.1 7 "94601" "94699").2.1 (by decide) (by decide),
   (calculateDistance_tiers.1 7 "94601" "10001").2.2 (by decide) (by decide)⟩

/-- Claim C1: for criteria with non-empty zip and primaryNeed,
`matchResources` returns at most 5 results, every result's category equals
the primary need, and empty input yields the empty list (totality: the
function is defined for all inputs). -/
theorem matchResources_bounded_category
    (draw : Nat → Nat) (resources : List Resource) (userInfo : UserInfo)
    (_hzip : userInfo.zip ≠ "") (_hneed : userInfo.primaryNeed ≠ "") :
    (matchResources draw resources userInfo).length ≤ 5 ∧
    (∀ m ∈ matchResources draw resources userInfo,
      m.resource.category = userInfo.primaryNeed) ∧
    matchResources draw [] userInfo = [] := by
  refine ⟨?_, ?_, ?_⟩
  · unfold matchResources
    simp [List.length_take_le]
  · intro m hm
    obtain ⟨hmem, -⟩ := mem_matchResources hm
    have h1 : m.resource ∈ categoryFilter resources userInfo.primaryNeed := by
      unfold eligibilityStage at hmem
      exact (List.mem_filter.mp hmem).1
    unfold categoryFilter at h1
    simpa using (List.mem_filter.mp h1).2
  · simp [matchResources, categoryFilter, eligibilityStage, languageStage_eq, annotateDistance]

/-- Claim C1 witness: concrete criteria with non-empty zip and primary need
over a two-resource catalog. -/
theorem matchResources_bounded_category_witness :
    (matchResources (fun _ => 3)
        [⟨"Alpha", "food", "94601", none, none⟩, ⟨"Beta", "housing", "94601", none, none⟩]
        ⟨"94601", "food", some "English", "low", "30-40", 1⟩).length ≤ 5 ∧
    (∀ m ∈ matchResources (fun _ => 3)
        [⟨"Alpha", "food", "94601", none, none⟩, ⟨"Beta", "housing", "94601", none, none⟩]
        ⟨"94601", "food", some "English", "low", "30-40", 1⟩,
      m.resource.category = (⟨"94601", "food", some "English", "low", "30-40", 1⟩ : UserInfo).primaryNeed) ∧
    matchResources (fun _ => 3) [] ⟨"94601", "food", some "English", "low", "30-40", 1⟩ = [] :=
  matchResources_bounded_category (fun _ => 3)
    [⟨"Alpha", "food", "94601", none, none⟩, ⟨"Beta", "housing", "94601", none, none⟩]
    ⟨"94601", "food", some "English", "low", "30-40", 1⟩ (by decide) (by decide)

/-- Claim C2 counterexample: with two equal-distance resources named "a"
and "B", the program's `localeCompare` tie-break (base letters first)
orders "a" before "B", while ascending case-sensitive lexicographic
(code-point) order requires "B" before "a" — so the result violates the
claimed ordering. -/
theorem matchResources_ties_not_codepoint :
    ¬ List.Pairwise
      (fun x y : MatchResult => x.distance < y.distance ∨
        (x.distance = y.distance ∧ x.resource.name ≤ y.resource.name))
      (matchResources (fun _ => 0)
        [⟨"a", "food", "94601", none, none⟩, ⟨"B", "food", "94601", none, none⟩]
        ⟨"94601", "food", some "English", "low", "30-40", 1⟩) := by
  have hsorted : List.Pairwise (fun p q : MatchResult => matchLE p q = true)
      [⟨⟨"a", "food", "94601", none, none⟩, 0⟩,
       ⟨⟨"B", "food", "94601", none, none⟩, 0⟩] := by
    decide
  have hres : matchResources (fun _ => 0)
      [⟨"a", "food", "94601", none, none⟩, ⟨"B", "food", "94601", none, none⟩]
      ⟨"94601", "food", some "English", "low", "30-40", 1⟩ =
      [⟨⟨"a", "food", "94601", none, none⟩, 0⟩,
       ⟨⟨"B", "food", "94601", none, none⟩, 0⟩] := by
    show (List.mergeSort
        [⟨⟨"a", "food", "94601", none, none⟩, 0⟩,
         ⟨⟨"B", "food", "94601", none, none⟩, 0⟩] matchLE).take 5 =
      [⟨⟨"a", "food", "94601", none, none⟩, 0⟩,
       ⟨⟨"B", "food", "94601", none, none⟩, 0⟩]
    rw [List.mergeSort_of_sorted hsorted]
    rfl
  intro h
  rw [hres] at h
  have hrel := (List.pairwise_cons.mp h).1 ⟨⟨"B", "food", "94601", none, none⟩, 0⟩ (by simp)
  rcases hrel with h1 | ⟨-, h2⟩
  · exact absurd h1 (by decide)
  · exact absurd (String.le_iff_toList_le.mp h2) (not_le.mpr (by decide))

/-- Claim C2 amended: the match result is sorted non-decreasing by
distance, with equal-distance ties in non-decreasing `localeCompare`
(default-locale collation) order of the resource name — base letters
compared case-insensitively first, lowercase before uppercase at the tie
level — not raw code-point order; at most 5 entries are returned.  (The
sort is the stable `mergeSort` of the annotated candidates, modelling the
ECMAScript stable `Array.prototype.sort`.) -/
theorem matchResources_sorted_locale
    (draw : Nat → Nat) (resources : List Resource) (userInfo : UserInfo) :
    List.Pairwise
      (fun a b : MatchResult => a.distance < b.distance ∨
        (a.distance = b.distance ∧
          jsLocaleCompare a.resource.name b.resource.name ≠ .gt))
      (matchResources draw resources userInfo) ∧
    (matchResources draw resources userInfo).length ≤ 5 := by
  constructor
  · unfold matchResources
    apply List.Pairwise.sublist (List.take_sublist 5 _)
    have hs := List.sorted_mergeSort
      (fun a b c => matchLE_trans a b c)
      (fun a b => matchLE_total a b)
      (annotateDistance draw userInfo.zip
        (languageStage
          (eligibilityStage (categoryFilter resources userInfo.primaryNeed) userInfo)
          (userInfo.preferredLanguage.getD "English")))
    exact hs.imp (fun h => (matchLE_iff _ _).mp h)
  · unfold matchResources
    simp [List.length_take_le]

/-- Claim C4: the eligibility filter admits every resource with an absent or
empty tag set; a resource with a non-empty tag set passes iff the derived
user-tag set is empty or the two sets intersect; the user tags are derived
exactly by the three fixed rules; and user tags {low_income} against
resource tags {senior} is excluded. -/
theorem matchesEligibility_spec :
    (∀ (r : Resource) (u : UserInfo),
      (r.eligibilityTags = none ∨ r.eligibilityTags = some []) →
      matchesEligibility r u = true) ∧
    (∀ (r : Resource) (u : UserInfo) (ts : List String),
      r.eligibilityTags = some ts → ts ≠ [] →
      (matchesEligibility r u = true ↔
        (userTags u = [] ∨ ∃ t ∈ ts, t ∈ userTags u))) ∧
    (∀ (u : UserInfo) (t : String), t ∈ userTags u ↔
      ((t = "low_income" ∧ (u.incomeBracket = "low" ∨ u.incomeBracket = "very_low")) ∨
       (t = "senior" ∧ u.ageRange = "65+") ∨
       (t = "parent" ∧ u.householdSize > 1))) ∧
    matchesEligibility ⟨"Meals for Seniors", "food", "94612", some ["senior"], none⟩
      ⟨"94601", "food", some "English", "low", "30-40", 1⟩ = false := by
  refine ⟨?_, ?_, ?_, by decide⟩
  · rintro r u (h | h) <;> simp [matchesEligibility, h]
  · intro r u ts hts hne
    simp only [matchesEligibility, hts]
    rw [if_neg (by simp [hne])]
    by_cases hu : userTags u = []
    · simp [hu, hne]
    · have h1 : ts.length > 0 := List.length_pos.mpr hne
      have h2 : (userTags u).length > 0 := List.length_pos.mpr hu
      rw [if_pos (by simp [h1, h2])]
      simp [List.any_eq_true, hu, List.contains, List.elem_iff]
  · intro u t
    by_cases h1 : u.incomeBracket = "low" ∨ u.incomeBracket = "very_low" <;>
      by_cases h2 : u.ageRange = "65+" <;>
      by_cases h3 : 1 < u.householdSize <;>
      simp [userTags, h1, h2, h3, gt_iff_lt]

/-- Claim C4 witness: an open-to-all resource passes for any user, and a
senior-tagged resource passes for a user whose derived tags contain
`senior`. -/
theorem matchesEligibility_spec_witness :
    matchesEligibility ⟨"Open Pantry", "food", "94601", none, none⟩
      ⟨"94601", "food", some "English", "moderate", "30-40", 1⟩ = true ∧
    matchesEligibility ⟨"Meals for Seniors", "food", "94612", some ["senior"], none⟩
      ⟨"94601", "food", some "English", "moderate", "65+", 1⟩ = true :=
  ⟨matchesEligibility_spec.1 ⟨"Open Pantry", "food", "94601", none, none⟩
      ⟨"94601", "food", some "English", "moderate", "30-40", 1⟩ (Or.inl rfl),
   (matchesEligibility_spec.2.1 ⟨"Meals for Seniors", "food", "94612", some ["senior"], none⟩
      ⟨"94601", "food", some "English", "moderate", "65+", 1⟩ ["senior"] rfl (by decide)).mpr
      (Or.inr ⟨"senior", by decide, by decide⟩)⟩

/-- Claim C5: `supportsLanguage` holds exactly when the supported-languages
list is absent, empty, or contains the preference case-insensitively; the
language stage keeps the supporting subset when non-empty and is the
identity when it is empty, in which case the final match result is exactly
the eligibility-stage output annotated, sorted and truncated to 5. -/
theorem languageStage_soft_filter :
    (∀ (r : Resource) (lang : String), supportsLanguage r lang = true ↔
      (r.languagesSupported = none ∨ r.languagesSupported = some [] ∨
        ∃ s ∈ r.languagesSupported.getD [], jsToLower s = jsToLower lang)) ∧
    (∀ (matched : List Resource) (lang : String),
      (matched.filter (fun resource => supportsLanguage resource lang) ≠ [] →
        languageStage matched lang =
          matched.filter (fun resource => supportsLanguage resource lang)) ∧
      (matched.filter (fun resource => supportsLanguage resource lang) = [] →
        languageStage matched lang = matched)) ∧
    (∀ (draw : Nat → Nat) (resources : List Resource) (u : UserInfo),
      (eligibilityStage (categoryFilter resources u.primaryNeed) u).filter
          (fun resource => supportsLanguage resource (u.preferredLanguage.getD "English")) = [] →
      matchResources draw resources u =
        ((annotateDistance draw u.zip
            (eligibilityStage (categoryFilter resources u.primaryNeed) u)).mergeSort
          matchLE).take 5) := by
  refine ⟨?_, ?_, ?_⟩
  · intro r lang
    cases hls : r.languagesSupported with
    | none => simp [supportsLanguage, hls]
    | some langs =>
      cases langs with
      | nil => simp [supportsLanguage, hls]
      | cons a as =>
        simp [supportsLanguage, hls, List.any_eq_true]
  · intro matched lang
    constructor
    · intro hne
      rw [languageStage_eq, if_pos (List.length_pos.mpr hne)]
    · intro he
      rw [languageStage_eq, he]
      simp
  · intro draw resources u hempty
    have hid : languageStage (eligibilityStage (categoryFilter resources u.primaryNeed) u)
        (u.preferredLanguage.getD "English") =
        eligibilityStage (categoryFilter resources u.primaryNeed) u := by
      rw [languageStage_eq, hempty]
      simp
    simp only [matchResources]
    rw [hid]

/-- Claim C5 witness: with a single Spanish-only food resource and an
English preference, the language subset is empty and the result equals the
eligibility-stage output's top 5 by distance. -/
theorem languageStage_soft_filter_witness :
    matchResources (fun _ => 2) [⟨"Alpha", "food", "94601", none, some ["Spanish"]⟩]
        ⟨"94601", "food", some "English", "low", "30-40", 1⟩ =
      ((annotateDistance (fun _ => 2) "94601"
          (eligibilityStage
            (categoryFilter [⟨"Alpha", "food", "94601", none, some ["Spanish"]⟩] "food")
            ⟨"94601", "food", some "English", "low", "30-40", 1⟩)).mergeSort matchLE).take 5 :=
  languageStage_soft_filter.2.2 (fun _ => 2)
    [⟨"Alpha", "food", "94601", none, some ["Spanish"]⟩]
    ⟨"94601", "food", some "English", "low", "30-40", 1⟩ (by decide)

/-- Claim C6 counterexample: the record `{id: 0, name: "A", category:
"food"}` exposes `id`, `name` and `category` fields, yet normalization does
not return it unchanged (the falsy `id: 0` sends it through the remapping
branch, which builds an 11-field record). -/
theorem normalizeResource_not_identity_on_exposed_fields :
    normalizeResource (.num 0)
        [("id", .num 0), ("name", .str "A"), ("category", .str "food")] ≠
      .ok [("id", .num 0), ("name", .str "A"), ("category", .str "food")] := by
  intro h
  have h2 : (11 : Nat) = 3 :=
    congrArg (fun e : Except String RawRecord =>
      match e with | .ok l => l.length | .error _ => 0) h
  exact absurd h2 (by decide)

/-- Claim C6 amended: a record whose `id`, `name` and `category` fields are
all present and truthy is returned unchanged; normalizing an
already-canonical record is a no-op. -/
theorem normalizeResource_identity_on_truthy_fields
    (randId : JValue) (r : RawRecord)
    (hid : truthyO (getField r "id") = true)
    (hname : truthyO (getField r "name") = true)
    (hcat : truthyO (getField r "category") = true) :
    normalizeResource randId r = .ok r := by
  simp [normalizeResource, hid, hname, hcat]

/-- Claim C6 amended witness: a concrete canonical record is normalized to
itself. -/
theorem normalizeResource_identity_witness :
    normalizeResource (.num 0)
        [("id", .str "r1"), ("name", .str "Alpha"), ("category", .str "food")] =
      .ok [("id", .str "r1"), ("name", .str "Alpha"), ("category", .str "food")] :=
  normalizeResource_identity_on_truthy_fields (.num 0)
    [("id", .str "r1"), ("name", .str "Alpha"), ("category", .str "food")]
    (by decide) (by decide) (by decide)

/-- Claim C7 counterexample: "Constructor" is non-empty and not in the
synonym table, but its lower-casing "constructor" hits the inherited
`Object.prototype.constructor` through the prototype chain, so the program
returns the (truthy, non-string) `Object` constructor function instead of
the lower-cased string — refuting "lower-cased and kept" and "always a
non-empty string". -/
theorem mapCategory_proto_leak :
    mapCategory (some (.str "Constructor")) = .ok (.func "Object") ∧
    mapCategory (some (.str "Constructor")) ≠ .ok (.str "constructor") := by
  refine ⟨rfl, ?_⟩
  intro h
  injection h with h2
  exact JValue.noConfusion h2

/-- Claim C7 amended: category normalization of a non-empty string is
case-insensitive (it depends only on the lower-cased input) and maps the
synonym table to canonical categories ("Food Bank" → "food", "shelter" and
"rental assistance" → "housing"); a string not in the table whose
lower-casing is not an inherited `Object.prototype` key (`constructor`,
`__proto__`) is lower-cased and kept, and the result is then a non-empty
string; for those two keys the prototype chain leaks a truthy non-string
instead. -/
theorem mapCategory_spec :
    (∀ s t : String, s ≠ "" → t ≠ "" → jsToLower s = jsToLower t →
      mapCategory (some (.str s)) = mapCategory (some (.str t))) ∧
    mapCategory (some (.str "Food Bank")) = .ok (.str "food") ∧
    mapCategory (some (.str "shelter")) = .ok (.str "housing") ∧
    mapCategory (some (.str "rental assistance")) = .ok (.str "housing") ∧
    (∀ s : String, s ≠ "" →
      categoryMap.find? (fun p => p.1 == jsToLower s) = none →
      jsToLower s ≠ "constructor" → jsToLower s ≠ "__proto__" →
      mapCategory (some (.str s)) = .ok (.str (jsToLower s))) ∧
    (∀ s : String, s ≠ "" →
      jsToLower s ≠ "constructor" → jsToLower s ≠ "__proto__" →
      ∃ c, mapCategory (some (.str s)) = .ok (.str c) ∧ c ≠ "") := by
  have htruthy : ∀ s : String, s ≠ "" → (JValue.str s).truthy = true := by
    intro s hs
    simp [JValue.truthy, hs]
  have hopen : ∀ s : String, s ≠ "" → mapCategory (some (.str s)) =
      .ok (jsOrD (categoryMapGet (jsToLower s)) (.str (jsToLower s))) := by
    intro s hs
    simp [mapCategory, htruthy s hs]
  have hkept : ∀ s : String, s ≠ "" →
      categoryMap.find? (fun p => p.1 == jsToLower s) = none →
      jsToLower s ≠ "constructor" → jsToLower s ≠ "__proto__" →
      mapCategory (some (.str s)) = .ok (.str (jsToLower s)) := by
    intro s hs hfind hc hp
    rw [hopen s hs]
    simp [categoryMapGet, hfind, protoLookup, hc, hp, jsOrD, truthyO]
  refine ⟨?_, by rfl, by rfl, by rfl, hkept, ?_⟩
  · intro s t hs ht hlow
    rw [hopen s hs, hopen t ht, hlow]
  · intro s hs hc hp
    cases hfind : categoryMap.find? (fun p => p.1 == jsToLower s) with
    | none => exact ⟨jsToLower s, hkept s hs hfind hc hp, jsToLower_ne_empty hs⟩
    | some q =>
      have hq2 : q.2 ≠ "" :=
        (by decide : ∀ p ∈ categoryMap, p.2 ≠ "") q (List.mem_of_find?_eq_some hfind)
      refine ⟨q.2, ?_, hq2⟩
      rw [hopen s hs]
      simp [categoryMapGet, hfind, jsOrD, truthyO, JValue.truthy, hq2]

/-- Claim C7 amended witness: a synonym ("Food Bank"), a case variant
("MEAL" agrees with "meal"), and a non-empty unmapped category away from
the prototype keys. -/
theorem mapCategory_spec_witness :
    mapCategory (some (.str "Food Bank")) = .ok (.str "food") ∧
    mapCategory (some (.str "MEAL")) = mapCategory (some (.str "meal")) ∧
    (∃ c, mapCategory (some (.str "Community Fridge")) = .ok (.str c) ∧ c ≠ "") :=
  ⟨mapCategory_spec.2.1,
   mapCategory_spec.1 "MEAL" "meal" (by decide) (by decide) (by decide),
   mapCategory_spec.2.2.2.2.2 "Community Fridge" (by decide) (by decide) (by decide)⟩

/-- Claim C8 counterexample: `normalizeResource` is not total over raw
records with arbitrary values — a truthy non-string `category` (here the
number 123) reaches `.toLowerCase()` and raises a `TypeError`. -/
theorem normalizeResource_throws_on_numeric_category :
    normalizeResource (.num 0) [("category", .num 123)] =
      .error "TypeError: category.toLowerCase is not a function" := rfl

/-- `mapCategory` succeeds whenever its resolved input, if truthy, is a
string. -/
theorem mapCategory_ok_of (v : Option JValue)
    (h : ∀ w, v = some w → w.truthy = true → ∃ s, w = .str s) :
    ∃ c, mapCategory v = .ok c := by
  cases v with
  | none => exact ⟨.str "other", rfl⟩
  | some w =>
    by_cases ht : w.truthy = true
    · obtain ⟨s, rfl⟩ := h w rfl ht
      exact ⟨jsOrD (categoryMapGet (jsToLower s)) (.str (jsToLower s)),
        by simp [mapCategory, ht]⟩
    · exact ⟨.str "other", by simp [mapCategory, ht]⟩

/-- `extractZip` succeeds whenever its input, if truthy, is a string. -/
theorem extractZip_ok_of (v : JValue) (h : v.truthy = true → ∃ s, v = .str s) :
    ∃ z, extractZip v = .ok z := by
  by_cases ht : v.truthy = true
  · obtain ⟨s, rfl⟩ := h ht
    rcases h5 : findZip5 none s.data with - | m
    · rcases h9 : findZipPlus4 none s.data with - | m2
      · exact ⟨"", by simp [extractZip, ht, h5, h9]⟩
      · exact ⟨⟨m2.take 5⟩, by simp [extractZip, ht, h5, h9]⟩
    · exact ⟨⟨m⟩, by simp [extractZip, ht, h5]⟩
  · exact ⟨"", by simp [extractZip, ht]⟩

/-- Claim C8 amended: normalization never fails provided the resolved
category source value (`category`/`service_category`/`type`) and the
resolved ZIP source value (`zip`/`postal_code`/`location.postal_code`/
`address`), when truthy, hold strings; and a record missing canonical and
alternate fields yields exactly the hardcoded defaults. -/
theorem normalizeResource_total_on_string_sources :
    (∀ (randId : JValue) (r : RawRecord),
      (∀ w, jsOr (getField r "category")
          (jsOr (getField r "service_category") (getField r "type")) = some w →
        w.truthy = true → ∃ s, w = .str s) →
      ((jsOrD (jsOr (getField r "zip") (jsOr (getField r "postal_code")
          (jsOr (getField2 r "location" "postal_code") (getField r "address"))))
          (.str "")).truthy = true →
        ∃ s, jsOrD (jsOr (getField r "zip") (jsOr (getField r "postal_code")
          (jsOr (getField2 r "location" "postal_code") (getField r "address"))))
          (.str "") = .str s) →
      ∃ out, normalizeResource randId r = .ok out) ∧
    (∀ randId : JValue, normalizeResource randId [] = .ok
      [("id", randId), ("name", .str "Unknown Resource"), ("category", .str "other"),
       ("address", .str ""), ("zip", .str ""), ("hours", .str "Contact for hours"),
       ("phone", .str ""), ("website", .str ""), ("eligibilityNotes", .str ""),
       ("eligibilityTags", .arr []), ("languagesSupported", .arr [.str "English"])]) := by
  constructor
  · intro randId r hcat hzip
    by_cases hfast : (truthyO (getField r "id") && truthyO (getField r "name") &&
        truthyO (getField r "category")) = true
    · exact ⟨r, by simp [normalizeResource, hfast]⟩
    · obtain ⟨c, hc⟩ := mapCategory_ok_of _ hcat
      obtain ⟨z, hz⟩ := extractZip_ok_of _ hzip
      exact ⟨_, by rw [normalizeResource, if_neg hfast]; rw [hc, hz]; rfl⟩
  · intro randId
    rfl

/-- Claim C8 amended witness: a record with only a `name` field is
normalized successfully, and the empty record receives the defaults. -/
theorem normalizeResource_total_witness :
    (∃ out, normalizeResource (.num 0) [("name", .str "Beta")] = .ok out) ∧
    normalizeResource (.num 0) [] = .ok
      [("id", .num 0), ("name", .str "Unknown Resource"), ("category", .str "other"),
       ("address", .str ""), ("zip", .str ""), ("hours", .str "Contact for hours"),
       ("phone", .str ""), ("website", .str ""), ("eligibilityNotes", .str ""),
       ("eligibilityTags", .arr []), ("languagesSupported", .arr [.str "English"])] :=
  ⟨normalizeResource_total_on_string_sources.1 (.num 0) [("name", .str "Beta")]
      (fun _ h => nomatch h)
      (fun h => nomatch h),
   normalizeResource_total_on_string_sources.2 (.num 0)⟩

/-- Claim C9: any two reads within the TTL window of a cached snapshot
return that snapshot with the cache unchanged — independent of what the
source would deliver (no re-fetch) — and `refreshResources`
unconditionally discards the cached data and timestamp, so the read it
performs delivers the freshly loaded catalog and re-stamps the cache. -/
theorem cache_ttl_and_refresh :
    (∀ (α : Type) (load load2 : α) (now1 now2 : Nat) (c : ResourceCache α)
      (d : α) (t : Nat),
      c.data = some d → c.timestamp = some t → t ≠ 0 →
      now1 - t < c.ttl → now2 - t < c.ttl →
      getAllResources load now1 c = (d, c) ∧ getAllResources load2 now2 c = (d, c)) ∧
    (∀ (α : Type) (load : α) (now : Nat) (c : ResourceCache α),
      refreshResources load now c = (load, ⟨some load, some now, c.ttl⟩)) := by
  constructor
  · intro α load load2 now1 now2 c d t hd ht ht0 h1 h2
    obtain ⟨cd, ct, cttl⟩ := c
    simp only at hd ht h1 h2
    subst hd ht
    refine ⟨?_, ?_⟩
    · unfold getAllResources
      dsimp only
      rw [if_pos ⟨ht0, h1⟩]
    · unfold getAllResources
      dsimp only
      rw [if_pos ⟨ht0, h2⟩]
  · intro α load now c
    rfl

/-- Claim C9 witness: concrete cache hits within the TTL and a concrete
refresh. -/
theorem cache_ttl_and_refresh_witness :
    (getAllResources [2] 10 (⟨some [1], some 5, 3600000⟩ : ResourceCache (List Nat)) =
        ([1], ⟨some [1], some 5, 3600000⟩) ∧
      getAllResources [3] 20 (⟨some [1], some 5, 3600000⟩ : ResourceCache (List Nat)) =
        ([1], ⟨some [1], some 5, 3600000⟩)) ∧
    refreshResources [4] 30 (⟨some [1], some 5, 3600000⟩ : ResourceCache (List Nat)) =
      ([4], ⟨some [4], some 30, 3600000⟩) :=
  ⟨cache_ttl_and_refresh.1 (List Nat) [2] [3] 10 20 ⟨some [1], some 5, 3600000⟩ [1] 5
      rfl rfl (by decide) (by decide) (by decide),
   cache_ttl_and_refresh.2 (List Nat) [4] 30 ⟨some [1], some 5, 3600000⟩⟩

/-- Claim C10: a non-canonical record with all three language source fields
absent is normalized with `languagesSupported = ["English"]` (never the
empty list), and a resource whose `languagesSupported` is `["English"]` is
treated by the language check as supporting exactly English
(case-insensitively), not as universally supported. -/
theorem normalizeResource_default_english :
    (∀ (randId : JValue) (r : RawRecord) (out : RawRecord),
      (truthyO (getField r "id") && truthyO (getField r "name") &&
        truthyO (getField r "category")) = false →
      getField r "languagesSupported" = none →
      getField r "languages_supported" = none →
      getField r "languages" = none →
      normalizeResource randId r = .ok out →
      getField out "languagesSupported" = some (.arr [.str "English"])) ∧
    (∀ (res : Resource) (lang : String), res.languagesSupported = some ["English"] →
      (supportsLanguage res "English" = true ∧
        (supportsLanguage res lang = true ↔ jsToLower lang = "english") ∧
        supportsLanguage res "Spanish" = false)) := by
  constructor
  · intro randId r out hfast hl1 hl2 hl3 hnorm
    cases hc : mapCategory (jsOr (getField r "category")
        (jsOr (getField r "service_category") (getField r "type"))) with
    | error e =>
      have hcomp : normalizeResource randId r = .error e := by
        unfold normalizeResource
        rw [if_neg (by simp [hfast]), hc]
        exact rfl
      rw [hcomp] at hnorm
      exact Except.noConfusion hnorm
    | ok c =>
      cases hz : extractZip (jsOrD (jsOr (getField r "zip") (jsOr (getField r "postal_code")
          (jsOr (getField2 r "location" "postal_code") (getField r "address")))) (.str "")) with
      | error e =>
        have hcomp : normalizeResource randId r = .error e := by
          unfold normalizeResource
          rw [if_neg (by simp [hfast]), hc, hz]
          exact rfl
        rw [hcomp] at hnorm
        exact Except.noConfusion hnorm
      | ok z =>
        have hcomp : normalizeResource randId r = .ok
            [("id", jsOrD (jsOr (getField r "id")
                (jsOr (getField r "resource_id") (getField r "organization_id"))) randId),
             ("name", jsOrD (jsOr (getField r "name")
                (jsOr (getField r "organization_name") (getField r "title")))
                (.str "Unknown Resource")),
             ("category", c),
             ("address", jsOrD (jsOr (getField r "address")
                (jsOr (getField2 r "location" "address") (getField r "physical_address")))
                (.str "")),
             ("zip", .str z),
             ("hours", jsOrD (jsOr (getField r "hours")
                (jsOr (getField r "hours_of_operation") (getField r "schedule")))
                (.str "Contact for hours")),
             ("phone", jsOrD (jsOr (getField r "phone")
                (jsOr (getField r "phone_number") (getField r "contact_phone"))) (.str "")),
             ("website", jsOrD (jsOr (getField r "website")
                (jsOr (getField r "url") (getField r "web_url"))) (.str "")),
             ("eligibilityNotes", jsOrD (jsOr (getField r "eligibilityNotes")
                (jsOr (getField r "eligibility_notes")
                  (jsOr (getField r "eligibility") (getField r "description")))) (.str "")),
             ("eligibilityTags", jsOrD (jsOr (getField r "eligibilityTags")
                (jsOr (getField r "eligibility_tags") (getField r "tags"))) (.arr [])),
             ("languagesSupported", jsOrD (jsOr (getField r "languagesSupported")
                (jsOr (getField r "languages_supported") (getField r "languages")))
                (.arr [.str "English"]))] := by
          unfold normalizeResource
          rw [if_neg (by simp [hfast]), hc, hz]
          exact rfl
        rw [hcomp] at hnorm
        injection hnorm with hout
        subst hout
        rw [hl1, hl2, hl3]
        rfl
  · intro res lang hres
    obtain ⟨n, cat, z, et, ls⟩ := res
    simp only at hres
    subst hres
    refine ⟨rfl, ?_, rfl⟩
    show ((jsToLower "English" == jsToLower lang) || false) = true ↔
      jsToLower lang = "english"
    rw [Bool.or_false, beq_iff_eq,
      (rfl : jsToLower "English" = "english")]
    exact eq_comm

/-- Claim C10 witness: the record `{name: "Beta"}` (no language fields) is
normalized with `languagesSupported = ["English"]`, and a resource
supporting exactly `["English"]` accepts "english" but rejects "Tagalog". -/
theorem normalizeResource_default_english_witness :
    getField
      [("id", .num 0), ("name", .str "Unknown Resource"), ("category", .str "other"),
       ("address", .str ""), ("zip", .str ""), ("hours", .str "Contact for hours"),
       ("phone", .str ""), ("website", .str ""), ("eligibilityNotes", .str ""),
       ("eligibilityTags", .arr []), ("languagesSupported", .arr [.str "English"])]
      "languagesSupported" = some (.arr [.str "English"]) ∧
    supportsLanguage ⟨"Alpha", "food", "94601", none, some ["English"]⟩ "English" = true ∧
    (supportsLanguage ⟨"Alpha", "food", "94601", none, some ["English"]⟩ "Tagalog" = true ↔
      jsToLower "Tagalog" = "english") :=
  ⟨normalizeResource_default_english.1 (.num 0) [] _ (by decide) rfl rfl rfl rfl,
   (normalizeResource_default_english.2 ⟨"Alpha", "food", "94601", none, some ["English"]⟩
      "Tagalog" rfl).1,
   (normalizeResource_default_english.2 ⟨"Alpha", "food", "94601", none, some ["English"]⟩
      "Tagalog" rfl).2.1⟩
